import Mathlib

/-!
Shallow embedding of the reminder-scheduling core of `src/bot.js`
(li-reminder-bot): the per-chat `node-cron` tasks held in `activeTasks`,
the Supabase `reminders` table, the four command handlers, the tick
callback created inside `handleRemindCommand`, and the top-level message
dispatcher.  Supabase rows are modelled as an association list keyed by
`chat_id`; cron tasks as `Timer` values that stay live until stopped;
time as wall-clock minutes (`Nat`).  Store failures are injected only at
the one write whose failure behaviour the source distinguishes (the
final `update({active: true})` of `handleRemindCommand`); all other
store calls are modelled on their success path.
-/

namespace LiReminderBot

/-- A row of the `reminders` table as created in bot.js:63-70:
`active` defaults to `false` on upsert-insert, `last_reminder` is
nullable.  `created_at` is never read by the program and is omitted. -/
structure ReminderRecord where
  active : Bool
  interval_minutes : Int
  last_reminder : Option Nat
deriving DecidableEq

/-- An in-memory `node-cron` task as created by `cron.schedule`
(bot.js:123).  `tid` identifies the task object, `chat_id` and
`interval` are the values captured by its closure, `start` is the
wall-clock minute at which it was scheduled.  A scheduled task keeps
firing until someone calls `.stop()` on it, whether or not it is still
referenced from `activeTasks`; `liveTimers` below tracks exactly the
created-and-not-yet-stopped tasks. -/
structure Timer where
  tid : Nat
  chat_id : Int
  interval : Int
  start : Nat
deriving DecidableEq

/-- The mutable state of the process: the persisted `reminders` table
(`store`), the `activeTasks` object of bot.js:21 (chat id to task),
the set of created-and-not-stopped cron tasks (`liveTimers`), and a
counter supplying identities for newly created tasks. -/
structure BotState where
  store : List (Int × ReminderRecord)
  activeTasks : List (Int × Nat)
  liveTimers : List Timer
  nextTid : Nat
deriving DecidableEq

/-- The outbound messages of bot.js, one constructor per distinct
`sendMessage`/`sendCommandKeyboard` call site.  Constructors carrying an
`Int` correspond to messages that interpolate the interval value. -/
inductive Msg where
  /-- Greeting keyboard sent by `handleStartCommand` (bot.js:86). -/
  | startGreeting
  /-- Keyboard confirming reminders are on, bot.js:154-158. -/
  | remindEnabled (interval : Int)
  /-- Generic failure message from `handleRemindCommand` catch, bot.js:161. -/
  | remindError
  /-- Keyboard for a non-numeric interval, bot.js:168. -/
  | intervalBadFormat
  /-- Keyboard for an out-of-range interval, bot.js:172-176. -/
  | intervalOutOfRange
  /-- Plain message sent before re-running the enable path, bot.js:200. -/
  | intervalChanged (m : Int)
  /-- Keyboard when the interval is stored while inactive, bot.js:204. -/
  | intervalSetInactive (m : Int)
  /-- Keyboard confirming reminders are off, bot.js:228. -/
  | stopped
  /-- Keyboard confirming the publication is done, bot.js:252. -/
  | published
  /-- Default command keyboard for unrecognised text, bot.js:292. -/
  | keyboardDefault
  /-- Plain message from the dispatcher catch at bot.js:296. -/
  | processingError
deriving DecidableEq

/-- Lookup in an association list keyed by chat id; models a Supabase
select with an `eq` filter on the unique `chat_id` column (first row of
the result set, as in `existing[0]` / `.single()`). -/
def lookupA {α : Type} : List (Int × α) → Int → Option α
  | [], _ => none
  | p :: rest, k => if p.1 = k then some p.2 else lookupA rest k

/-- Overwrite-or-append for an association list; models assigning
`activeTasks[chatId] = task` on the JS object (bot.js:144). -/
def upsertA {α : Type} : List (Int × α) → Int → α → List (Int × α)
  | [], k, v => [(k, v)]
  | p :: rest, k, v => if p.1 = k then (k, v) :: rest else p :: upsertA rest k v

/-- Key removal; models `delete activeTasks[chatId]` (bot.js:217). -/
def removeA {α : Type} (l : List (Int × α)) (k : Int) : List (Int × α) :=
  l.filter (fun p => p.1 != k)

/-- Field update of every row matching the key; models
`supabase.update(fields).eq(chat_id, k)` (bot.js:147-150 and friends). -/
def updateA {α : Type} (l : List (Int × α)) (k : Int) (f : α → α) : List (Int × α) :=
  l.map (fun p => if p.1 = k then (p.1, f p.2) else p)

/-- The upsert of bot.js:181-188: update `interval_minutes` of the
existing row, or insert a fresh row in which the other columns take the
table defaults of bot.js:66-68 (`active = false`, `last_reminder`
null). -/
def upsertIntervalRow (l : List (Int × ReminderRecord)) (k : Int) (m : Int) :
    List (Int × ReminderRecord) :=
  match lookupA l k with
  | some _ => updateA l k (fun r => { r with interval_minutes := m })
  | none => l ++ [(k, { active := false, interval_minutes := m, last_reminder := none })]

/-- Minute-field semantics of the pattern built at bot.js:122,
`*/interval * * * *`: `node-cron` expands the step over the minute range
0-59, so the pattern matches wall-clock minute `t` exactly when
`t mod 60` is divisible by `interval`.  The four remaining fields are
wildcards. -/
def cronMinuteMatches (m : Int) (t : Nat) : Bool :=
  ((t % 60 : Nat) : Int) % m == 0

/-- A scheduled task fires at every wall-clock minute after its creation
at which its cron pattern matches. -/
def timerFires (tm : Timer) (t : Nat) : Bool :=
  decide (tm.start < t) && cronMinuteMatches tm.interval t

/-- Minutes from `t` to the next matching wall-clock minute of the
pattern `*/m * * * *` (some minute in the next 60 always matches, since
minute 0 of every hour matches). -/
def nextFireGap (m : Int) (t : Nat) : Option Nat :=
  ((List.range 60).find? (fun d => cronMinuteMatches m (t + d + 1))).map (· + 1)

/-- The `/start` handler (bot.js:83-91): runs `initDatabase` (table
creation, no row is read or written on the success path modelled here)
and greets; no timer or row state changes. -/
def handleStartCommand (s : BotState) (_chat : Int) : BotState × List Msg :=
  (s, [Msg.startGreeting])

/-- The enable handler `handleRemindCommand` (bot.js:94-163), with
`finalUpdateFails` injecting a failure of the last store write
(bot.js:147-152).  Steps, in source order: select the chat's rows; if
none, insert `{active: true, interval_minutes: 60}`, else take the
stored interval; stop the previously registered task if any; schedule a
new cron task and register it in `activeTasks`; finally write
`active = true`.  When that final write fails the thrown error is
caught at bot.js:159-162, which only logs and sends the generic error
message: the just-scheduled task is not stopped. -/
def handleRemindCommand (s : BotState) (chat : Int) (now : Nat)
    (finalUpdateFails : Bool) : BotState × List Msg :=
  let interval : Int :=
    match lookupA s.store chat with
    | some r => r.interval_minutes
    | none => 60
  let store1 : List (Int × ReminderRecord) :=
    match lookupA s.store chat with
    | some _ => s.store
    | none =>
      s.store ++ [(chat, { active := true, interval_minutes := 60, last_reminder := none })]
  let live1 : List Timer :=
    match lookupA s.activeTasks chat with
    | some tid0 => s.liveTimers.filter (fun tm => tm.tid != tid0)
    | none => s.liveTimers
  let newTimer : Timer := { tid := s.nextTid, chat_id := chat, interval := interval, start := now }
  let s1 : BotState :=
    { store := store1
      activeTasks := upsertA s.activeTasks chat s.nextTid
      liveTimers := live1 ++ [newTimer]
      nextTid := s.nextTid + 1 }
  if finalUpdateFails then
    (s1, [Msg.remindError])
  else
    ({ s1 with store := updateA store1 chat (fun r => { r with active := true }) },
     [Msg.remindEnabled interval])

/-- The interval handler `handleIntervalCommand` (bot.js:166-209):
`minutes = none` models the `isNaN` guard (bot.js:167), the range guard
is bot.js:171; then the interval is upserted, the row's `active` flag is
re-read, and if it is set the enable path is re-run (bot.js:199-202),
prepending the "interval changed" message. -/
def handleIntervalCommand (s : BotState) (chat : Int) (minutes : Option Int) (now : Nat)
    (finalUpdateFails : Bool) : BotState × List Msg :=
  match minutes with
  | none => (s, [Msg.intervalBadFormat])
  | some m =>
    if m < 5 ∨ 1440 < m then
      (s, [Msg.intervalOutOfRange])
    else
      let store1 := upsertIntervalRow s.store chat m
      let s1 : BotState := { s with store := store1 }
      match lookupA store1 chat with
      | some r =>
        if r.active then
          let p := handleRemindCommand s1 chat now finalUpdateFails
          (p.1, Msg.intervalChanged m :: p.2)
        else
          (s1, [Msg.intervalSetInactive m])
      | none => (s1, [Msg.intervalSetInactive m])

/-- The stop/publish state transition shared verbatim by
`handleStopCommand` (bot.js:212-233) and `handlePublishedCommand`
(bot.js:236-257): stop and deregister the chat's task if any, then
write `active = false` (a no-row match is not an error for the
filtered update). -/
def stopReminderState (s : BotState) (chat : Int) : BotState :=
  match lookupA s.activeTasks chat with
  | some tid0 =>
    { s with
      activeTasks := removeA s.activeTasks chat
      liveTimers := s.liveTimers.filter (fun tm => tm.tid != tid0)
      store := updateA s.store chat (fun r => { r with active := false }) }
  | none =>
    { s with store := updateA s.store chat (fun r => { r with active := false }) }

/-- The disable handler (bot.js:212-233). -/
def handleStopCommand (s : BotState) (chat : Int) : BotState × List Msg :=
  (stopReminderState s chat, [Msg.stopped])

/-- The acknowledge handler (bot.js:236-257); identical state
transition, different confirmation message. -/
def handlePublishedCommand (s : BotState) (chat : Int) : BotState × List Msg :=
  (stopReminderState s chat, [Msg.published])

/-- Result of one invocation of the tick closure. -/
structure TickResult where
  store : List (Int × ReminderRecord)
  notified : Bool
  timerCancelled : Bool
deriving DecidableEq

/-- The tick closure scheduled at bot.js:123-142.  It selects the
chat's `active` flag (`readFails` models a failed or empty read, after
which `data` is null and `data?.active` is falsy); when the flag is set
it updates `last_reminder` to the current time (`writeFails` models a
failed write, whose result object the source ignores) and sends the
fire notification.  Nothing in the closure, including its catch at
bot.js:139-141, stops the task: `timerCancelled` is false on every
path. -/
def tickCallback (store : List (Int × ReminderRecord)) (chat : Int) (now : Nat)
    (readFails writeFails : Bool) : TickResult :=
  let data : Option ReminderRecord := if readFails then none else lookupA store chat
  match data with
  | some r =>
    if r.active then
      let store1 :=
        if writeFails then store
        else updateA store chat (fun q => { q with last_reminder := some now })
      { store := store1, notified := true, timerCancelled := false }
    else
      { store := store, notified := false, timerCancelled := false }
  | none => { store := store, notified := false, timerCancelled := false }

/-- Maximal leading-digit parse of a character list. -/
def parseNatDigits (cs : List Char) : Option Nat :=
  let ds := cs.takeWhile Char.isDigit
  if ds.isEmpty then none
  else some (ds.foldl (fun a c => a * 10 + (c.toNat - 48)) 0)

/-- JS `parseInt` restricted to what the dispatcher feeds it: optional
sign, then a maximal digit run; `none` models `NaN`. -/
def jsParseInt (w : String) : Option Int :=
  match w.toList with
  | '-' :: rest => (parseNatDigits rest).map (fun n => -(n : Int))
  | '+' :: rest => (parseNatDigits rest).map (fun n => (n : Int))
  | cs => (parseNatDigits cs).map (fun n => (n : Int))

/-- The argument extraction `parseInt(text.split(' ')[1])` of
bot.js:287; a missing second word gives `parseInt(undefined) = NaN`. -/
def jsParseIntSecondWord (t : String) : Option Int :=
  match (t.splitOn " ").get? 1 with
  | none => none
  | some w => jsParseInt w

/-- The message dispatcher `bot.on('message', ...)` of bot.js:260-298,
with `text` the possibly-absent `msg.text`.  The equality tests of the
if/else chain are total on an absent text (`undefined` equals none of
the string literals); the first operation applied to the text itself is
`text.startsWith('/interval')` at bot.js:286, which on an absent text
throws a TypeError that the surrounding catch (bot.js:294-297) turns
into the generic processing-error message, mutating nothing. -/
def dispatchMessage (s : BotState) (chat : Int) (text : Option String) (now : Nat) :
    BotState × List Msg :=
  if text = some "/start" then
    handleStartCommand s chat
  else if text = some "/remind" ∨ text = some "🔔 Включить напоминания" then
    handleRemindCommand s chat now false
  else if text = some "/stop" ∨ text = some "🔕 Выключить напоминания" then
    handleStopCommand s chat
  else if text = some "/published" ∨ text = some "✅ Публикация сделана" then
    handlePublishedCommand s chat
  else if text = some "⏱ 30 мин" then
    handleIntervalCommand s chat (some 30) now false
  else if text = some "⏱ 60 мин" then
    handleIntervalCommand s chat (some 60) now false
  else if text = some "⏱ 120 мин" then
    handleIntervalCommand s chat (some 120) now false
  else
    match text with
    | none => (s, [Msg.processingError])
    | some t =>
      if t.startsWith "/interval" then
        handleIntervalCommand s chat (jsParseIntSecondWord t) now false
      else
        (s, [Msg.keyboardDefault])

/-- In-memory state right after process start, given the persisted
store.  The module top level of bot.js initialises `activeTasks` to the
empty object (bot.js:21) and registers only the message handler and the
`unhandledRejection`/`SIGTERM`/`SIGINT` handlers (bot.js:260, 300-316);
no code scans the store or schedules a task at startup. -/
def startupState (store : List (Int × ReminderRecord)) : BotState :=
  { store := store, activeTasks := [], liveTimers := [], nextTid := 0 }

/-- One inbound command, with its failure-injection and clock
parameters. -/
inductive Cmd where
  | remind (now : Nat) (finalUpdateFails : Bool)
  | setInterval (minutes : Option Int) (now : Nat) (finalUpdateFails : Bool)
  | stop
  | published
  | start
deriving DecidableEq

/-- Dispatch of one command to its handler. -/
def applyCmd (s : BotState) (chat : Int) : Cmd → BotState × List Msg
  | .remind now f => handleRemindCommand s chat now f
  | .setInterval m now f => handleIntervalCommand s chat m now f
  | .stop => handleStopCommand s chat
  | .published => handlePublishedCommand s chat
  | .start => handleStartCommand s chat

/-- Sequential execution of a list of (chat, command) pairs. -/
def runCmds (s : BotState) (cs : List (Int × Cmd)) : BotState :=
  cs.foldl (fun st p => (applyCmd st p.1 p.2).1) s

/-- Number of live (created and not stopped) cron tasks for a chat. -/
def liveCount (s : BotState) (ch : Int) : Nat :=
  (s.liveTimers.map Timer.chat_id).count ch

/-- Well-formedness of the in-memory state: `activeTasks` is a function
(no duplicate keys), each chat has at most one live task, task ids are
below the id counter, and every live task is the one registered for its
chat.  It holds for the startup state and is preserved by every
handler. -/
def WF (s : BotState) : Prop :=
  (s.activeTasks.map Prod.fst).Nodup ∧
  (s.liveTimers.map Timer.chat_id).Nodup ∧
  (∀ tm ∈ s.liveTimers, tm.tid < s.nextTid) ∧
  (∀ p ∈ s.activeTasks, p.2 < s.nextTid) ∧
  (∀ tm ∈ s.liveTimers, lookupA s.activeTasks tm.chat_id = some tm.tid)

instance (s : BotState) : Decidable (WF s) := by
  unfold WF
  infer_instance

/-! Association-list lemmas used by the handler proofs. -/

theorem lookupA_append_left {α : Type} {l1 l2 : List (Int × α)} {k : Int}
    (h : lookupA l1 k = none) : lookupA (l1 ++ l2) k = lookupA l2 k := by
  induction l1 with
  | nil => rfl
  | cons p rest ih =>
    by_cases hk : p.1 = k
    · simp [lookupA, hk] at h
    · simp only [lookupA, hk, if_false, List.cons_append, if_neg hk] at h ⊢
      exact ih h

theorem lookupA_upsertA_self {α : Type} (l : List (Int × α)) (k : Int) (v : α) :
    lookupA (upsertA l k v) k = some v := by
  induction l with
  | nil => simp [upsertA, lookupA]
  | cons p rest ih =>
    by_cases hk : p.1 = k
    · simp [upsertA, hk, lookupA]
    · simp [upsertA, hk, lookupA, ih]

theorem lookupA_upsertA_ne {α : Type} (l : List (Int × α)) {k j : Int} (v : α)
    (h : j ≠ k) : lookupA (upsertA l k v) j = lookupA l j := by
  induction l with
  | nil => simp [upsertA, lookupA, Ne.symm h]
  | cons p rest ih =>
    by_cases hk : p.1 = k
    · have hpj : p.1 ≠ j := by rw [hk]; exact Ne.symm h
      simp [upsertA, hk, lookupA, Ne.symm h, hpj]
    · by_cases hpj : p.1 = j
      · simp [upsertA, hk, lookupA, hpj, h]
      · simp [upsertA, hk, lookupA, hpj, ih]

theorem mem_upsertA {α : Type} {l : List (Int × α)} {k : Int} {v : α} {q : Int × α}
    (h : q ∈ upsertA l k v) : q ∈ l ∨ q = (k, v) := by
  induction l with
  | nil =>
    simp [upsertA] at h
    simp [h]
  | cons p rest ih =>
    by_cases hk : p.1 = k
    · simp only [upsertA, if_pos hk, List.mem_cons] at h
      rcases h with h | h
      · right; exact h
      · left; exact List.mem_cons_of_mem _ h
    · simp only [upsertA, if_neg hk, List.mem_cons] at h
      rcases h with h | h
      · left; simp [h]
      · rcases ih h with h2 | h2
        · left; exact List.mem_cons_of_mem _ h2
        · right; exact h2

theorem keys_mem_upsertA {α : Type} {l : List (Int × α)} {k : Int} {v : α} {j : Int}
    (h : j ∈ (upsertA l k v).map Prod.fst) : j ∈ l.map Prod.fst ∨ j = k := by
  rcases List.mem_map.mp h with ⟨q, hq, rfl⟩
  rcases mem_upsertA hq with h2 | h2
  · left; exact List.mem_map_of_mem _ h2
  · right; rw [h2]

theorem keysNodup_upsertA {α : Type} {l : List (Int × α)} (k : Int) (v : α)
    (h : (l.map Prod.fst).Nodup) : ((upsertA l k v).map Prod.fst).Nodup := by
  induction l with
  | nil => simp [upsertA]
  | cons p rest ih =>
    rw [List.map_cons, List.nodup_cons] at h
    obtain ⟨hp, hrest⟩ := h
    by_cases hk : p.1 = k
    · simp only [upsertA, if_pos hk, List.map_cons, List.nodup_cons]
      exact ⟨hk ▸ hp, hrest⟩
    · simp only [upsertA, if_neg hk, List.map_cons, List.nodup_cons]
      refine ⟨fun hmem => ?_, ih hrest⟩
      rcases keys_mem_upsertA hmem with h2 | h2
      · exact hp h2
      · exact hk h2

theorem lookupA_removeA_self {α : Type} (l : List (Int × α)) (k : Int) :
    lookupA (removeA l k) k = none := by
  induction l with
  | nil => rfl
  | cons p rest ih =>
    simp only [removeA, List.filter_cons] at ih ⊢
    by_cases hk : p.1 = k
    · simp [hk, ih]
    · simp [hk, lookupA, ih]

theorem lookupA_removeA_ne {α : Type} (l : List (Int × α)) {k j : Int} (h : j ≠ k) :
    lookupA (removeA l k) j = lookupA l j := by
  induction l with
  | nil => rfl
  | cons p rest ih =>
    simp only [removeA, List.filter_cons] at ih ⊢
    by_cases hk : p.1 = k
    · have hpj : p.1 ≠ j := by rw [hk]; exact Ne.symm h
      simp [hk, lookupA, hpj, Ne.symm h, ih]
    · by_cases hpj : p.1 = j
      · simp [hk, lookupA, hpj, h]
      · simp [hk, lookupA, hpj, ih]

theorem lookupA_updateA_self {α : Type} (l : List (Int × α)) (k : Int) (f : α → α) :
    lookupA (updateA l k f) k = (lookupA l k).map f := by
  induction l with
  | nil => rfl
  | cons p rest ih =>
    by_cases hk : p.1 = k
    · simp [updateA, List.map_cons, hk, lookupA]
    · simp only [updateA, List.map_cons, if_neg hk, lookupA] at ih ⊢
      simp [hk, ih]

theorem lookupA_updateA_ne {α : Type} (l : List (Int × α)) {k j : Int} (f : α → α)
    (h : j ≠ k) : lookupA (updateA l k f) j = lookupA l j := by
  induction l with
  | nil => rfl
  | cons p rest ih =>
    simp only [updateA, List.map_cons] at ih ⊢
    by_cases hk : p.1 = k
    · have hpj : p.1 ≠ j := by rw [hk]; exact Ne.symm h
      simp [hk, lookupA, hpj, Ne.symm h, ih]
    · by_cases hpj : p.1 = j
      · simp [hk, lookupA, hpj, h]
      · simp [hk, lookupA, hpj, ih]

theorem updateA_updateA {α : Type} (l : List (Int × α)) (k : Int) (f : α → α)
    (hf : ∀ r, f (f r) = f r) : updateA (updateA l k f) k f = updateA l k f := by
  induction l with
  | nil => rfl
  | cons p rest ih =>
    simp only [updateA, List.map_cons] at ih ⊢
    by_cases hk : p.1 = k
    · simp [hk, hf, ih]
    · simp [hk, ih]

theorem lookupA_upsertIntervalRow_some {l : List (Int × ReminderRecord)} {k : Int}
    {r : ReminderRecord} (m : Int) (h : lookupA l k = some r) :
    lookupA (upsertIntervalRow l k m) k = some { r with interval_minutes := m } := by
  rw [upsertIntervalRow, h, lookupA_updateA_self, h]
  rfl

theorem lookupA_upsertIntervalRow_none {l : List (Int × ReminderRecord)} {k : Int}
    (m : Int) (h : lookupA l k = none) :
    lookupA (upsertIntervalRow l k m) k
      = some { active := false, interval_minutes := m, last_reminder := none } := by
  rw [upsertIntervalRow, h, lookupA_append_left h]
  simp [lookupA]

/-! Preservation of well-formedness by every handler. -/

/-- Field-level description of the state produced by the enable
handler: both the success and the failed-final-write branch register a
fresh task for the chat after stopping the previously registered one,
and differ only in the store. -/
theorem handleRemind_fields (s : BotState) (chat : Int) (now : Nat) (f : Bool) :
    ∃ st,
      (handleRemindCommand s chat now f).1 =
        { store := st
          activeTasks := upsertA s.activeTasks chat s.nextTid
          liveTimers :=
            (match lookupA s.activeTasks chat with
             | some tid0 => s.liveTimers.filter (fun tm => tm.tid != tid0)
             | none => s.liveTimers)
            ++ [{ tid := s.nextTid, chat_id := chat
                  interval :=
                    match lookupA s.store chat with
                    | some r => r.interval_minutes
                    | none => 60
                  start := now }]
          nextTid := s.nextTid + 1 } := by
  cases f
  · exact ⟨_, rfl⟩
  · exact ⟨_, rfl⟩

/-- Any state that stops being about a chat's old timers and appends
one fresh task for that chat, registering it in `activeTasks`, is
well formed. -/
theorem wf_append_new (s : BotState) (chat : Int) (now : Nat)
    (st : List (Int × ReminderRecord)) (live1 : List Timer) (iv : Int)
    (h1 : (s.activeTasks.map Prod.fst).Nodup)
    (h2 : (s.liveTimers.map Timer.chat_id).Nodup)
    (h3 : ∀ tm ∈ s.liveTimers, tm.tid < s.nextTid)
    (h4 : ∀ p ∈ s.activeTasks, p.2 < s.nextTid)
    (h5 : ∀ tm ∈ s.liveTimers, lookupA s.activeTasks tm.chat_id = some tm.tid)
    (hsub : live1.Sublist s.liveTimers)
    (hchat : ∀ tm ∈ live1, tm.chat_id ≠ chat) :
    WF { store := st, activeTasks := upsertA s.activeTasks chat s.nextTid,
         liveTimers := live1 ++ [⟨s.nextTid, chat, iv, now⟩], nextTid := s.nextTid + 1 } := by
  unfold WF
  refine ⟨?_, ?_, ?_, ?_, ?_⟩
  · exact keysNodup_upsertA chat s.nextTid h1
  · rw [List.map_append]
    refine List.nodup_append.mpr
      ⟨(hsub.map Timer.chat_id).nodup h2, List.nodup_singleton _, ?_⟩
    intro a ha ha2
    simp only [List.map_cons, List.map_nil, List.mem_singleton] at ha2
    rcases List.mem_map.mp ha with ⟨tm, htm, rfl⟩
    exact hchat tm htm ha2
  · intro tm htm
    rcases List.mem_append.mp htm with hmem | hmem
    · exact Nat.lt_succ_of_lt (h3 tm (hsub.subset hmem))
    · rcases List.mem_singleton.mp hmem with rfl
      exact Nat.lt_succ_self _
  · intro p hp
    rcases mem_upsertA hp with hmem | rfl
    · exact Nat.lt_succ_of_lt (h4 p hmem)
    · exact Nat.lt_succ_self _
  · intro tm htm
    rcases List.mem_append.mp htm with hmem | hmem
    · rw [lookupA_upsertA_ne s.activeTasks _ (hchat tm hmem)]
      exact h5 tm (hsub.subset hmem)
    · rcases List.mem_singleton.mp hmem with rfl
      exact lookupA_upsertA_self s.activeTasks chat s.nextTid

theorem wf_handleRemind (s : BotState) (chat : Int) (now : Nat) (f : Bool)
    (h : WF s) : WF (handleRemindCommand s chat now f).1 := by
  unfold WF at h
  obtain ⟨h1, h2, h3, h4, h5⟩ := h
  obtain ⟨st, hst⟩ := handleRemind_fields s chat now f
  rw [hst]
  rcases hT : lookupA s.activeTasks chat with _ | tid0
  · simp only [hT]
    refine wf_append_new s chat now st s.liveTimers _ h1 h2 h3 h4 h5
      (List.Sublist.refl _) ?_
    intro tm htm hc
    have h6 := h5 tm htm
    rw [hc, hT] at h6
    exact Option.noConfusion h6
  · simp only [hT]
    refine wf_append_new s chat now st _ _ h1 h2 h3 h4 h5
      (List.filter_sublist _) ?_
    intro tm htm hc
    rcases List.mem_filter.mp htm with ⟨hmem, htid⟩
    have h6 := h5 tm hmem
    rw [hc, hT] at h6
    have h7 : tid0 = tm.tid := Option.some.inj h6
    rw [bne_iff_ne] at htid
    exact htid h7.symm

/-- Well-formedness only constrains the in-memory fields; the store is
irrelevant. -/
theorem wf_store_irrel (s : BotState) (st : List (Int × ReminderRecord)) :
    WF { s with store := st } ↔ WF s := Iff.rfl

theorem wf_stopReminderState (s : BotState) (chat : Int) (h : WF s) :
    WF (stopReminderState s chat) := by
  unfold WF at h
  obtain ⟨h1, h2, h3, h4, h5⟩ := h
  unfold stopReminderState
  rcases hT : lookupA s.activeTasks chat with _ | tid0
  · exact ⟨h1, h2, h3, h4, h5⟩
  · unfold WF
    refine ⟨?_, ?_, ?_, ?_, ?_⟩
    · exact ((List.filter_sublist _).map Prod.fst).nodup h1
    · exact ((List.filter_sublist _).map Timer.chat_id).nodup h2
    · intro tm htm
      exact h3 tm ((List.filter_sublist _).subset htm)
    · intro p hp
      exact h4 p ((List.filter_sublist _).subset hp)
    · intro tm htm
      rcases List.mem_filter.mp htm with ⟨hmem, htid⟩
      rw [bne_iff_ne] at htid
      have hc : tm.chat_id ≠ chat := by
        intro hc
        have h6 := h5 tm hmem
        rw [hc, hT] at h6
        exact htid (Option.some.inj h6).symm
      rw [removeA, ← removeA, lookupA_removeA_ne _ hc]
      exact h5 tm hmem

theorem wf_handleInterval (s : BotState) (chat : Int) (m : Option Int) (now : Nat)
    (f : Bool) (h : WF s) : WF (handleIntervalCommand s chat m now f).1 := by
  rcases m with _ | v
  · exact h
  · unfold handleIntervalCommand
    by_cases hr : v < 5 ∨ 1440 < v
    · simp only [if_pos hr]
      exact h
    · simp only [if_neg hr]
      rcases hL : lookupA (upsertIntervalRow s.store chat v) chat with _ | r
      · exact h
      · cases hra : r.active
        · simp only [hra, Bool.false_eq_true, if_false]
          exact h
        · simp only [hra, if_true]
          exact wf_handleRemind _ chat now f h

theorem wf_applyCmd (s : BotState) (chat : Int) (c : Cmd) (h : WF s) :
    WF (applyCmd s chat c).1 := by
  cases c with
  | remind now f => exact wf_handleRemind s chat now f h
  | setInterval m now f => exact wf_handleInterval s chat m now f h
  | stop => exact wf_stopReminderState s chat h
  | published => exact wf_stopReminderState s chat h
  | start => exact h

theorem wf_runCmds (s : BotState) (cs : List (Int × Cmd)) (h : WF s) :
    WF (runCmds s cs) := by
  induction cs generalizing s with
  | nil => exact h
  | cons c rest ih => exact ih _ (wf_applyCmd s c.1 c.2 h)

theorem liveCount_le_one_of_wf (s : BotState) (h : WF s) (ch : Int) :
    liveCount s ch ≤ 1 := by
  unfold WF at h
  have h2 := h.2.1
  unfold liveCount
  exact List.nodup_iff_count_le_one.mp h2 ch

theorem mem_of_lookupA {α : Type} {l : List (Int × α)} {k : Int} {v : α}
    (h : lookupA l k = some v) : (k, v) ∈ l := by
  induction l with
  | nil => exact Option.noConfusion h
  | cons p rest ih =>
    by_cases hk : p.1 = k
    · simp only [lookupA, if_pos hk] at h
      have h2 : p.2 = v := Option.some.inj h
      have hp : p = (k, v) := by rw [← hk, ← h2]
      rw [← hp]
      exact List.mem_cons_self p rest
    · simp only [lookupA, if_neg hk] at h
      exact List.mem_cons_of_mem _ (ih h)

theorem active_false_of_lookupA_updateA {l : List (Int × ReminderRecord)} {chat : Int}
    {r : ReminderRecord}
    (h : lookupA (updateA l chat (fun q => { q with active := false })) chat = some r) :
    r.active = false := by
  rw [lookupA_updateA_self] at h
  rcases hq : lookupA l chat with _ | q
  · rw [hq] at h
    exact Option.noConfusion h
  · rw [hq] at h
    have h2 : ({ q with active := false } : ReminderRecord) = r := Option.some.inj h
    rw [← h2]

theorem stopReminderState_store (s : BotState) (chat : Int) :
    (stopReminderState s chat).store
      = updateA s.store chat (fun q => { q with active := false }) := by
  unfold stopReminderState
  rcases hT : lookupA s.activeTasks chat with _ | tid0 <;> rfl

theorem stopReminderState_tasks_none (s : BotState) (chat : Int) :
    lookupA (stopReminderState s chat).activeTasks chat = none := by
  unfold stopReminderState
  rcases hT : lookupA s.activeTasks chat with _ | tid0
  · exact hT
  · exact lookupA_removeA_self s.activeTasks chat

theorem stopReminderState_of_none (s : BotState) (chat : Int)
    (h : lookupA s.activeTasks chat = none) :
    stopReminderState s chat
      = { s with store := updateA s.store chat (fun q => { q with active := false }) } := by
  unfold stopReminderState
  rw [h]

theorem stopReminderState_idem (s : BotState) (chat : Int) :
    stopReminderState (stopReminderState s chat) chat = stopReminderState s chat := by
  rw [stopReminderState_of_none _ _ (stopReminderState_tasks_none s chat)]
  rw [stopReminderState_store,
      updateA_updateA s.store chat (fun q => { q with active := false }) (fun q => rfl)]
  rw [← stopReminderState_store]

theorem stopReminderState_liveCount (s : BotState) (chat : Int) (h : WF s) :
    liveCount (stopReminderState s chat) chat = 0 := by
  unfold WF at h
  obtain ⟨h1, h2, h3, h4, h5⟩ := h
  unfold stopReminderState liveCount
  rcases hT : lookupA s.activeTasks chat with _ | tid0
  · dsimp only
    rw [List.count_eq_zero]
    intro hmem
    rcases List.mem_map.mp hmem with ⟨tm, htm, hchat⟩
    have h6 := h5 tm htm
    rw [hchat, hT] at h6
    exact Option.noConfusion h6
  · dsimp only
    rw [List.count_eq_zero]
    intro hmem
    rcases List.mem_map.mp hmem with ⟨tm, htm, hchat⟩
    rcases List.mem_filter.mp htm with ⟨hmem2, htid⟩
    rw [bne_iff_ne] at htid
    have h6 := h5 tm hmem2
    rw [hchat, hT] at h6
    exact htid (Option.some.inj h6).symm

/-! Statements settling the specification claims. -/

/-- C1 (counterexample to the claim as stated): starting the process
with a store holding the single record
`{chat_id = 42, active = true, interval_minutes = 30}` yields no live
timer for chat 42, because bot.js performs no startup scan at all
(`activeTasks` starts empty at bot.js:21 and the module top level,
bot.js:300-318, registers only signal and error handlers). -/
theorem c1_startup_reconciliation_counterexample :
    (startupState [(42, { active := true, interval_minutes := 30, last_reminder := none })]).liveTimers
      = [] ∧
    liveCount (startupState [(42, { active := true, interval_minutes := 30, last_reminder := none })]) 42
      = 0 := by decide

/-- C1 (amended): starting the process performs no reconciliation of
any kind: whatever the persisted store contains, the in-memory task map
and the set of live timers start empty, so no chat has a live timer
until an explicit enable command arrives. -/
theorem c1_no_startup_reconciliation (store : List (Int × ReminderRecord)) (ch : Int) :
    (startupState store).liveTimers = [] ∧
    (startupState store).activeTasks = [] ∧
    liveCount (startupState store) ch = 0 :=
  ⟨rfl, rfl, rfl⟩

/-- C2 (counterexample to the claim as stated): enabling chat 1 on a
store whose record is `{active = false, interval_minutes = 30}` while
the final `update({active: true})` fails leaves the just-started timer
live (it is not cancelled) even though the persisted record still has
`active = false`; only the generic error message is sent.  The code
fails open, not closed. -/
theorem c2_fail_closed_counterexample :
    (handleRemindCommand ⟨[(1, ⟨false, 30, none⟩)], [], [], 0⟩ 1 0 true).1.liveTimers
      = [⟨0, 1, 30, 0⟩] ∧
    lookupA (handleRemindCommand ⟨[(1, ⟨false, 30, none⟩)], [], [], 0⟩ 1 0 true).1.store 1
      = some ⟨false, 30, none⟩ ∧
    (handleRemindCommand ⟨[(1, ⟨false, 30, none⟩)], [], [], 0⟩ 1 0 true).2
      = [Msg.remindError] := by decide

/-- C2 (amended): when the final persistence write of Enable fails, the
handler reports failure but does not cancel the just-started timer: the
fresh task remains live and, whenever a record already existed for the
chat, that record is left entirely unchanged (in particular its
`active` flag is not set). -/
theorem c2_enable_write_failure_fails_open (s : BotState) (chat : Int) (now : Nat) :
    (handleRemindCommand s chat now true).2 = [Msg.remindError] ∧
    (∀ r, lookupA s.store chat = some r →
      ({ tid := s.nextTid, chat_id := chat, interval := r.interval_minutes, start := now } : Timer)
        ∈ (handleRemindCommand s chat now true).1.liveTimers ∧
      lookupA (handleRemindCommand s chat now true).1.store chat = some r) := by
  refine ⟨rfl, fun r hr => ⟨?_, ?_⟩⟩
  · obtain ⟨st, hst⟩ := handleRemind_fields s chat now true
    rw [hst]
    simp only [hr]
    exact List.mem_append_right _ (List.mem_singleton.mpr rfl)
  · have hstore : (handleRemindCommand s chat now true).1.store
        = match lookupA s.store chat with
          | some _ => s.store
          | none =>
            s.store ++ [(chat, { active := true, interval_minutes := 60, last_reminder := none })] :=
      rfl
    rw [hstore]
    simp only [hr]

theorem c2_enable_write_failure_fails_open_witness :
    (handleRemindCommand ⟨[(1, ⟨false, 30, none⟩)], [], [], 0⟩ 1 0 true).2
      = [Msg.remindError] ∧
    (⟨0, 1, 30, 0⟩ : Timer)
      ∈ (handleRemindCommand ⟨[(1, ⟨false, 30, none⟩)], [], [], 0⟩ 1 0 true).1.liveTimers ∧
    lookupA (handleRemindCommand ⟨[(1, ⟨false, 30, none⟩)], [], [], 0⟩ 1 0 true).1.store 1
      = some ⟨false, 30, none⟩ :=
  ⟨(c2_enable_write_failure_fails_open ⟨[(1, ⟨false, 30, none⟩)], [], [], 0⟩ 1 0).1,
   ((c2_enable_write_failure_fails_open ⟨[(1, ⟨false, 30, none⟩)], [], [], 0⟩ 1 0).2
      ⟨false, 30, none⟩ (by decide)).1,
   ((c2_enable_write_failure_fails_open ⟨[(1, ⟨false, 30, none⟩)], [], [], 0⟩ 1 0).2
      ⟨false, 30, none⟩ (by decide)).2⟩

/-- C3 (failing input for the code bug): a persisted interval of 120
(offered by the bot's own 120-minute keyboard button and accepted by the
range check) installs the cron pattern with 120 in the minute field,
which matches only minute 0 of each hour: successive matching minutes
are 60 apart, not 120.  An interval of 90 likewise fires hourly, and 35
produces alternating 35/25-minute gaps, while a divisor of 60 such as 30
does give the stated cadence. -/
theorem c3_cron_cadence_failing_input :
    (handleRemindCommand
        ⟨[(1, { active := true, interval_minutes := 120, last_reminder := none })], [], [], 0⟩
        1 0 false).1.liveTimers = [⟨0, 1, 120, 0⟩] ∧
    timerFires ⟨0, 1, 120, 0⟩ 60 = true ∧
    timerFires ⟨0, 1, 120, 0⟩ 120 = true ∧
    nextFireGap 120 0 = some 60 ∧
    nextFireGap 120 60 = some 60 ∧
    nextFireGap 90 0 = some 60 ∧
    nextFireGap 35 35 = some 25 ∧
    nextFireGap 30 0 = some 30 ∧
    nextFireGap 30 30 = some 30 := by decide

/-- C4: from any well-formed state, any sequence of inbound commands
(enables, interval changes with or without a failing final write, stops,
acknowledges, starts) leaves at most one live timer for every chat; in
particular calling Enable twice in a row never yields two concurrent
timers for the chat. -/
theorem c4_at_most_one_live_timer_per_chat (s : BotState) (cs : List (Int × Cmd))
    (h : WF s) (ch : Int) : liveCount (runCmds s cs) ch ≤ 1 :=
  liveCount_le_one_of_wf _ (wf_runCmds s cs h) ch

theorem c4_at_most_one_live_timer_per_chat_witness :
    liveCount (runCmds ⟨[], [], [], 0⟩ [(1, Cmd.remind 0 false), (1, Cmd.remind 5 false)]) 1
      ≤ 1 :=
  c4_at_most_one_live_timer_per_chat ⟨[], [], [], 0⟩
    [(1, Cmd.remind 0 false), (1, Cmd.remind 5 false)] (by decide) 1

/-- C5: an interval command whose argument is NaN (the only non-integer
the JS call sites can produce, since every call passes a `parseInt`
result or an integer literal) or an integer outside 5..1440 is rejected
with one of the two invalid-interval replies and leaves the entire
state, store and timers alike, exactly as it was. -/
theorem c5_invalid_interval_rejected (s : BotState) (chat : Int) (m : Option Int)
    (now : Nat) (f : Bool)
    (h : m = none ∨ ∃ v, m = some v ∧ (v < 5 ∨ 1440 < v)) :
    (handleIntervalCommand s chat m now f).1 = s ∧
    ((handleIntervalCommand s chat m now f).2 = [Msg.intervalBadFormat] ∨
     (handleIntervalCommand s chat m now f).2 = [Msg.intervalOutOfRange]) := by
  rcases h with rfl | ⟨v, rfl, hv⟩
  · exact ⟨rfl, Or.inl rfl⟩
  · have hres : handleIntervalCommand s chat (some v) now f = (s, [Msg.intervalOutOfRange]) := by
      simp only [handleIntervalCommand, if_pos hv]
    rw [hres]
    exact ⟨rfl, Or.inr rfl⟩

theorem c5_invalid_interval_rejected_witness :
    (handleIntervalCommand ⟨[], [], [], 0⟩ 1 (some 2000) 0 false).1
      = (⟨[], [], [], 0⟩ : BotState) ∧
    ((handleIntervalCommand ⟨[], [], [], 0⟩ 1 (some 2000) 0 false).2
        = [Msg.intervalBadFormat] ∨
     (handleIntervalCommand ⟨[], [], [], 0⟩ 1 (some 2000) 0 false).2
        = [Msg.intervalOutOfRange]) :=
  c5_invalid_interval_rejected ⟨[], [], [], 0⟩ 1 (some 2000) 0 false
    (Or.inr ⟨2000, rfl, Or.inr (by decide)⟩)

/-- C6 (counterexample to the claim as stated): retuning chat 1 from 60
to 30 at wall-clock minute 10 installs the new timer, but its first
subsequent fire is at minute 30 (20 minutes after the retune), not at
minute 40 as a 30-minute cadence measured from the retune moment would
require: cron fire times are wall-clock aligned. -/
theorem c6_retune_cadence_counterexample :
    (handleIntervalCommand ⟨[(1, ⟨true, 60, none⟩)], [(1, 0)], [⟨0, 1, 60, 0⟩], 1⟩
        1 (some 30) 10 false).1.liveTimers = [⟨1, 1, 30, 10⟩] ∧
    timerFires ⟨1, 1, 30, 10⟩ 30 = true ∧
    timerFires ⟨1, 1, 30, 10⟩ 40 = false := by decide

/-- C6 (amended): a valid interval command for a chat whose record is
active re-runs the full enable sequence: a fresh timer at the new
cadence is installed, the previously registered task for the chat is no
longer live, and the new timer's fire times beyond the retune moment
are exactly the wall-clock minutes matched by the cron pattern,
independent of the retune moment. -/
theorem c6_retune_reinstalls_wall_clock_timer (s : BotState) (chat : Int) (m : Int)
    (now : Nat) (r : ReminderRecord) (hwf : WF s) (hrange : ¬(m < 5 ∨ 1440 < m))
    (hrec : lookupA s.store chat = some r) (hact : r.active = true) :
    ({ tid := s.nextTid, chat_id := chat, interval := m, start := now } : Timer)
      ∈ (handleIntervalCommand s chat (some m) now false).1.liveTimers ∧
    (∀ tid0, lookupA s.activeTasks chat = some tid0 →
      ∀ tm ∈ (handleIntervalCommand s chat (some m) now false).1.liveTimers, tm.tid ≠ tid0) ∧
    (∀ t, now < t →
      timerFires { tid := s.nextTid, chat_id := chat, interval := m, start := now } t
        = cronMinuteMatches m t) := by
  unfold WF at hwf
  obtain ⟨h1, h2, h3, h4, h5⟩ := hwf
  have hL : lookupA (upsertIntervalRow s.store chat m) chat
      = some { r with interval_minutes := m } := lookupA_upsertIntervalRow_some m hrec
  have hres : handleIntervalCommand s chat (some m) now false
      = ((handleRemindCommand { s with store := upsertIntervalRow s.store chat m } chat now false).1,
         Msg.intervalChanged m
           :: (handleRemindCommand { s with store := upsertIntervalRow s.store chat m }
                chat now false).2) := by
    simp only [handleIntervalCommand, if_neg hrange, hL]
    rw [if_pos (show ({ r with interval_minutes := m } : ReminderRecord).active = true from hact)]
  obtain ⟨st, hst⟩ :=
    handleRemind_fields { s with store := upsertIntervalRow s.store chat m } chat now false
  refine ⟨?_, ?_, ?_⟩
  · rw [hres, hst]
    dsimp only
    simp only [hL]
    exact List.mem_append_right _ (List.mem_singleton.mpr rfl)
  · intro tid0 hT tm htm
    rw [hres, hst] at htm
    dsimp only at htm
    simp only [hT] at htm
    rcases List.mem_append.mp htm with hmem | hmem
    · rcases List.mem_filter.mp hmem with ⟨-, htid⟩
      rw [bne_iff_ne] at htid
      exact htid
    · rcases List.mem_singleton.mp hmem with rfl
      intro he
      have he2 : s.nextTid = tid0 := he
      have hlt := h4 _ (mem_of_lookupA hT)
      omega
  · intro t ht
    show (decide (now < t) && cronMinuteMatches m t) = cronMinuteMatches m t
    rw [decide_eq_true ht, Bool.true_and]

theorem c6_retune_reinstalls_wall_clock_timer_witness :
    (⟨1, 1, 30, 10⟩ : Timer)
      ∈ (handleIntervalCommand ⟨[(1, ⟨true, 60, none⟩)], [(1, 0)], [⟨0, 1, 60, 0⟩], 1⟩
          1 (some 30) 10 false).1.liveTimers ∧
    timerFires ⟨1, 1, 30, 10⟩ 60 = cronMinuteMatches 30 60 :=
  ⟨(c6_retune_reinstalls_wall_clock_timer
      ⟨[(1, ⟨true, 60, none⟩)], [(1, 0)], [⟨0, 1, 60, 0⟩], 1⟩ 1 30 10 ⟨true, 60, none⟩
      (by decide) (by decide) (by decide) rfl).1,
   (c6_retune_reinstalls_wall_clock_timer
      ⟨[(1, ⟨true, 60, none⟩)], [(1, 0)], [⟨0, 1, 60, 0⟩], 1⟩ 1 30 10 ⟨true, 60, none⟩
      (by decide) (by decide) (by decide) rfl).2.2 60 (by decide)⟩

/-- C7: the enable handler resolves the cadence from the store: with no
record for the chat it creates one with `active = true` and the default
interval of 60 and installs a 60-minute timer; with an existing record
it installs a timer at the record's stored `interval_minutes` and only
flips `active` to true, so re-enabling after an interval change and a
disable reuses the persisted interval rather than the default. -/
theorem c7_enable_interval_resolution (s : BotState) (chat : Int) (now : Nat) :
    (lookupA s.store chat = none →
      ({ tid := s.nextTid, chat_id := chat, interval := 60, start := now } : Timer)
        ∈ (handleRemindCommand s chat now false).1.liveTimers ∧
      lookupA (handleRemindCommand s chat now false).1.store chat
        = some { active := true, interval_minutes := 60, last_reminder := none }) ∧
    (∀ r, lookupA s.store chat = some r →
      ({ tid := s.nextTid, chat_id := chat, interval := r.interval_minutes, start := now } : Timer)
        ∈ (handleRemindCommand s chat now false).1.liveTimers ∧
      lookupA (handleRemindCommand s chat now false).1.store chat
        = some { r with active := true }) := by
  have hstore : (handleRemindCommand s chat now false).1.store
      = updateA
          (match lookupA s.store chat with
           | some _ => s.store
           | none =>
             s.store
               ++ [(chat, { active := true, interval_minutes := 60, last_reminder := none })])
          chat (fun q => { q with active := true }) := rfl
  obtain ⟨st, hst⟩ := handleRemind_fields s chat now false
  constructor
  · intro h
    constructor
    · rw [hst]
      simp only [h]
      exact List.mem_append_right _ (List.mem_singleton.mpr rfl)
    · rw [hstore]
      simp only [h]
      rw [lookupA_updateA_self, lookupA_append_left h]
      simp [lookupA]
  · intro r hr
    constructor
    · rw [hst]
      simp only [hr]
      exact List.mem_append_right _ (List.mem_singleton.mpr rfl)
    · rw [hstore]
      simp only [hr]
      rw [lookupA_updateA_self, hr]
      rfl

theorem c7_enable_interval_resolution_witness :
    (⟨0, 1, 30, 0⟩ : Timer)
      ∈ (handleRemindCommand ⟨[(1, ⟨false, 30, none⟩)], [], [], 0⟩ 1 0 false).1.liveTimers ∧
    lookupA (handleRemindCommand ⟨[(1, ⟨false, 30, none⟩)], [], [], 0⟩ 1 0 false).1.store 1
      = some ⟨true, 30, none⟩ :=
  (c7_enable_interval_resolution ⟨[(1, ⟨false, 30, none⟩)], [], [], 0⟩ 1 0).2
    ⟨false, 30, none⟩ (by decide)

/-- C8: after a stop or a publish command no live timer remains for the
chat and any persisted record for it has `active = false`; running
either command again immediately afterwards (also when no timer or no
record exists) returns the same state with the normal confirmation
message, raising no error. -/
theorem c8_disable_acknowledge_idempotent (s : BotState) (chat : Int) (h : WF s) :
    liveCount (handleStopCommand s chat).1 chat = 0 ∧
    liveCount (handlePublishedCommand s chat).1 chat = 0 ∧
    (∀ r, lookupA (handleStopCommand s chat).1.store chat = some r → r.active = false) ∧
    handleStopCommand (handleStopCommand s chat).1 chat
      = ((handleStopCommand s chat).1, [Msg.stopped]) ∧
    handlePublishedCommand (handleStopCommand s chat).1 chat
      = ((handleStopCommand s chat).1, [Msg.published]) ∧
    handleStopCommand (handlePublishedCommand s chat).1 chat
      = ((handlePublishedCommand s chat).1, [Msg.stopped]) := by
  refine ⟨stopReminderState_liveCount s chat h, stopReminderState_liveCount s chat h,
    ?_, ?_, ?_, ?_⟩
  · intro r hr
    have hr2 : lookupA (stopReminderState s chat).store chat = some r := hr
    rw [stopReminderState_store] at hr2
    exact active_false_of_lookupA_updateA hr2
  · show (stopReminderState (stopReminderState s chat) chat, [Msg.stopped]) = _
    rw [stopReminderState_idem]
    rfl
  · show (stopReminderState (stopReminderState s chat) chat, [Msg.published]) = _
    rw [stopReminderState_idem]
    rfl
  · show (stopReminderState (stopReminderState s chat) chat, [Msg.stopped]) = _
    rw [stopReminderState_idem]
    rfl

theorem c8_disable_acknowledge_idempotent_witness :
    liveCount
      (handleStopCommand ⟨[(1, ⟨true, 30, none⟩)], [(1, 0)], [⟨0, 1, 30, 0⟩], 1⟩ 1).1 1 = 0 ∧
    handleStopCommand
        (handleStopCommand ⟨[(1, ⟨true, 30, none⟩)], [(1, 0)], [⟨0, 1, 30, 0⟩], 1⟩ 1).1 1
      = ((handleStopCommand ⟨[(1, ⟨true, 30, none⟩)], [(1, 0)], [⟨0, 1, 30, 0⟩], 1⟩ 1).1,
         [Msg.stopped]) :=
  ⟨(c8_disable_acknowledge_idempotent
      ⟨[(1, ⟨true, 30, none⟩)], [(1, 0)], [⟨0, 1, 30, 0⟩], 1⟩ 1 (by decide)).1,
   (c8_disable_acknowledge_idempotent
      ⟨[(1, ⟨true, 30, none⟩)], [(1, 0)], [⟨0, 1, 30, 0⟩], 1⟩ 1 (by decide)).2.2.2.1⟩

theorem tickCallback_read_fail (store : List (Int × ReminderRecord)) (chat : Int)
    (now : Nat) (wfl : Bool) :
    tickCallback store chat now true wfl
      = { store := store, notified := false, timerCancelled := false } := rfl

theorem tickCallback_no_row (store : List (Int × ReminderRecord)) (chat : Int)
    (now : Nat) (wfl : Bool) (h : lookupA store chat = none) :
    tickCallback store chat now false wfl
      = { store := store, notified := false, timerCancelled := false } := by
  unfold tickCallback
  rw [if_neg Bool.false_ne_true, h]

theorem tickCallback_inactive (store : List (Int × ReminderRecord)) (chat : Int)
    (now : Nat) (wfl : Bool) (r : ReminderRecord) (h : lookupA store chat = some r)
    (ha : r.active = false) :
    tickCallback store chat now false wfl
      = { store := store, notified := false, timerCancelled := false } := by
  unfold tickCallback
  rw [if_neg Bool.false_ne_true, h]
  dsimp only
  rw [ha, if_neg Bool.false_ne_true]

theorem tickCallback_active (store : List (Int × ReminderRecord)) (chat : Int)
    (now : Nat) (r : ReminderRecord) (h : lookupA store chat = some r)
    (ha : r.active = true) (wfl : Bool) :
    tickCallback store chat now false wfl
      = { store :=
            if wfl then store
            else updateA store chat (fun q => { q with last_reminder := some now }),
          notified := true, timerCancelled := false } := by
  unfold tickCallback
  rw [if_neg Bool.false_ne_true, h]
  dsimp only
  rw [if_pos ha]

/-- C9: one tick of the closure scheduled by the enable handler reads
the chat's current `active` flag: a false flag (or an unreadable or
missing row) produces no store write and no notification; a true flag
persists `last_reminder = now` and emits the notification; and no
combination of read or write failure cancels the timer, so the task
keeps running on its normal cadence. -/
theorem c9_tick_callback (store : List (Int × ReminderRecord)) (chat : Int) (now : Nat)
    (rf wfl : Bool) :
    (tickCallback store chat now rf wfl).timerCancelled = false ∧
    (∀ r, lookupA store chat = some r → r.active = false →
      tickCallback store chat now false wfl
        = { store := store, notified := false, timerCancelled := false }) ∧
    (∀ r, lookupA store chat = some r → r.active = true →
      tickCallback store chat now false false
        = { store := updateA store chat (fun q => { q with last_reminder := some now }),
            notified := true, timerCancelled := false }) ∧
    tickCallback store chat now true wfl
      = { store := store, notified := false, timerCancelled := false } ∧
    (∀ r, lookupA store chat = some r → r.active = true →
      tickCallback store chat now false true
        = { store := store, notified := true, timerCancelled := false }) := by
  refine ⟨?_, ?_, ?_, rfl, ?_⟩
  · cases rf
    · rcases hL : lookupA store chat with _ | r
      · rw [tickCallback_no_row store chat now wfl hL]
      · cases ha : r.active
        · rw [tickCallback_inactive store chat now wfl r hL ha]
        · rw [tickCallback_active store chat now r hL ha wfl]
    · rfl
  · intro r hL ha
    exact tickCallback_inactive store chat now wfl r hL ha
  · intro r hL ha
    rw [tickCallback_active store chat now r hL ha false]
    rfl
  · intro r hL ha
    rw [tickCallback_active store chat now r hL ha true]
    rfl

theorem c9_tick_callback_witness :
    lookupA [(1, (⟨true, 30, none⟩ : ReminderRecord))] 1 = some ⟨true, 30, none⟩ ∧
    tickCallback [(1, ⟨true, 30, none⟩)] 1 7 false false
      = { store := updateA [(1, ⟨true, 30, none⟩)] 1 (fun q => { q with last_reminder := some 7 }),
          notified := true, timerCancelled := false } :=
  ⟨by decide,
   (c9_tick_callback [(1, ⟨true, 30, none⟩)] 1 7 false false).2.2.1
     ⟨true, 30, none⟩ (by decide) rfl⟩

/-- C10: a message without text (photo, sticker, ...) falls through
every equality test of the dispatcher, throws in the
`startsWith('/interval')` step, and is answered by the surrounding
catch with the generic processing-error message — not the command
keyboard — while the state (store, task map, live timers) is returned
exactly unchanged. -/
theorem c10_textless_message_generic_error (s : BotState) (chat : Int) (now : Nat) :
    dispatchMessage s chat none now = (s, [Msg.processingError]) := rfl

end LiReminderBot
